import Mathlib

/-!
Verification of the access-control core of the content-store service.

The definitions below are a shallow embedding of the JavaScript source:

* `verifySignedUrl`, `generateSignedUrl`, `checkFileOwnership` from
  `helpers/file-security.js`;
* `findFileInStorage` from `utils/storage.js`;
* `handleFileAccess` from `handlers/access.js`;
* `handleTogglePublic` from `handlers/public.js`.

JS strings are Lean `String`s; `null | string` query parameters are
`Option String`; machine time is `Nat` seconds; the R2 bucket is a list of
objects carrying key, custom metadata, http metadata and body.  The JWT
middleware (`authenticateJWT`) is an external collaborator of the handlers:
its outcome is passed in as `principal : Option String` (`some uid` when the
credential verified, `none` otherwise), which is exactly how the handlers
consume it (`authResult.success` / `authResult.user.id`).
-/

namespace ContentStore

/-- JS falsiness of a nullable string (`null` and `""` are falsy). -/
def isFalsy : Option String → Bool
  | none => true
  | some s => s == ""

/-- JS `x || d` for a possibly-absent string `x`: the fallback is taken when
`x` is `null`/`undefined` or the empty string. -/
def jsOrStr (v : Option String) (d : String) : String :=
  match v with
  | some s => if s == "" then d else s
  | none => d

/-- JS `parseInt` on the decimal strings this service produces: value of the
longest leading run of decimal digits, `none` when there is none (`NaN`). -/
def parseIntJS (s : String) : Option Nat :=
  let ds := s.data.takeWhile Char.isDigit
  if ds.isEmpty then none
  else some (ds.foldl (fun a c => a * 10 + (c.toNat - 48)) 0)

/-- The base64 alphabet used by `btoa`, as a list indexed by 6-bit value. -/
def b64Alphabet : List Char :=
  ("ABCDEFGHIJKLMNOPQRSTUVWXYZabcdefghijklmnopqrstuvwxyz0123456789+/").data

/-- Character of a 6-bit group. -/
def b64c (n : Nat) : Char :=
  b64Alphabet.getD n 'A'

/-- `btoa` on a list of byte values: standard base64 with `=` padding,
processing three bytes into four alphabet characters. -/
def btoaBytes : List Nat → List Char
  | [] => []
  | [a] => [b64c (a / 4), b64c (a % 4 * 16), '=', '=']
  | [a, b] => [b64c (a / 4), b64c (a % 4 * 16 + b / 16), b64c (b % 16 * 4), '=']
  | a :: b :: c :: rest =>
      b64c (a / 4) :: b64c (a % 4 * 16 + b / 16) :: b64c (b % 16 * 4 + c / 64) ::
        b64c (c % 64) :: btoaBytes rest

/-- Code units of a JS string (`btoa` requires them below 256). -/
def strToBytes (s : String) : List Nat :=
  s.data.map Char.toNat

/-- Whether every code unit of the string is a byte, i.e. `btoa` accepts it. -/
def isByteStr (s : String) : Bool :=
  s.data.all (fun c => c.toNat < 256)

/-- JS `btoa(s)`. -/
def btoa (s : String) : String :=
  ⟨btoaBytes (strToBytes s)⟩

/-- JS `.replace(/[+/=]/g, '')`: drop every `+`, `/` and `=`. -/
def stripB64 (s : String) : String :=
  ⟨s.data.filter (fun c => !(c == '+' || c == '/' || c == '='))⟩

/-- The signed payload `` `${fileId}:${userId}:${expiresAt}` `` of
`file-security.js` (lines 81 and 117). -/
def signedPayload (fileId userId expires : String) : String :=
  fileId ++ (":") ++ userId ++ (":") ++ expires

/-- The signature of `file-security.js`:
`btoa(payload + env.AUTH_JWT_SECRET).replace(/[+/=]/g, '')`. -/
def sigOf (fileId userId expires secret : String) : String :=
  stripB64 (btoa (signedPayload fileId userId expires ++ secret))

/-- The capability token `generateSignedUrl` serializes into the query
string of the returned URL (`file-security.js` lines 79-87). -/
structure SignedToken where
  fileId : String
  userId : String
  expiresAt : Nat
  signature : String
deriving DecidableEq

/-- `generateSignedUrl(fileId, userId, env, expiresInMinutes)`:
`expiresAt = now + expiresInMinutes*60`, signature over
`fileId:userId:expiresAt` plus the secret. -/
def generateSignedUrl (fileId userId secret : String) (now expiresInMinutes : Nat) :
    SignedToken :=
  let expiresAt := now + expiresInMinutes * 60
  { fileId := fileId, userId := userId, expiresAt := expiresAt,
    signature := sigOf fileId userId (toString expiresAt) secret }

/-- Result of `verifySignedUrl`: `invalid` carries the `error` field, `valid`
carries `userId`, `fileId` and `expiresAt` (`parseInt` of the `expires`
parameter, `none` for `NaN`). -/
inductive VerifyResult where
  | invalid (error : String)
  | valid (userId : String) (fileId : String) (expiresAt : Option Nat)
deriving DecidableEq

/-- `verifySignedUrl(fullUrlPath, env)` of `file-security.js` lines 95-134,
on the components the function extracts from the URL: `fileId` is the last
`url.pathname` segment, `signature`/`expires`/`user` the query parameters.
Input domains: the pathname segment can never contain `?` or `#` (URL
delimiters) and other special characters reach it percent-encoded with no
decoding anywhere in the chain, so realizable `fileId` values are strings
over the path-safe character set; by contrast `url.searchParams.get`
percent-decodes, so `signature`, `expires` and `user` range over arbitrary
strings (e.g. `user=%3E` delivers the one-character value `>`).  Checks, in
source order: presence of the three parameters, `parseInt(expires) < now`
(a `NaN` comparison is false, so an unparsable `expires` is never "expired"),
then recomputed-signature equality. -/
def verifySignedUrl (fileId : String) (signature expires user : Option String)
    (secret : String) (now : Nat) : VerifyResult :=
  if isFalsy signature || isFalsy expires || isFalsy user then
    .invalid ("Missing required parameters")
  else
    let sig := signature.getD ("")
    let exp := expires.getD ("")
    let uid := user.getD ("")
    if (match parseIntJS exp with
        | some e => decide (e < now)
        | none => false) then
      .invalid ("URL has expired")
    else if sig ≠ sigOf fileId uid exp secret then
      .invalid ("Invalid signature")
    else
      .valid uid fileId (parseIntJS exp)

/-- A stored R2 object: key, custom metadata, http metadata (as JS objects,
i.e. finite key-value maps, modelled as association lists read by first
match) and body. -/
structure R2Object where
  key : String
  customMetadata : List (String × String)
  httpMetadata : List (String × String)
  body : String
deriving DecidableEq

/-- The bucket contents, in listing order. -/
abbrev Bucket := List R2Object

/-- JS `s.startsWith(p)`: `p` is a leading substring of `s` (on the
character sequences of the two strings). -/
def jsStartsWith (s p : String) : Bool :=
  p.data.isPrefixOf s.data

/-- `CONTENT_BUCKET.list({prefix: 'uploads/'}).objects`: the objects whose
key starts with `uploads/`, in listing order. -/
def listUploads (bucket : Bucket) : List R2Object :=
  bucket.filter (fun o => jsStartsWith o.key ("uploads/"))

/-- `CONTENT_BUCKET.get(key)`. -/
def bucketGet (bucket : Bucket) (key : String) : Option R2Object :=
  bucket.find? (fun o => o.key == key)

/-- `key.split('/').pop()`: the part of the key after the last `/` (the last
element of the split). -/
def lastSegment (s : String) : String :=
  ⟨(s.data.reverse.takeWhile (fun c => c != '/')).reverse⟩

/-- The match test of the lookup loops in `storage.js` (lines 18-23) and
`file-security.js` (lines 156-162):
`fileName && fileName.startsWith(fileId + '.')` where `fileName` is the last
segment of the key. -/
def fileNameMatches (fileId key : String) : Bool :=
  let fileName := lastSegment key
  fileName ≠ ("") && jsStartsWith fileName (fileId ++ ("."))

/-- The shared `for (const object of listResult.objects) { ... break }` loop
of `findFileInStorage` and `checkFileOwnership`: first listed object whose
filename matches. -/
def findFirstMatch (fileId : String) : List R2Object → Option R2Object
  | [] => none
  | o :: rest => if fileNameMatches fileId o.key then some o else findFirstMatch fileId rest

/-- `findFileInStorage(fileId, env)` of `utils/storage.js`. -/
def findFileInStorage (fileId : String) (bucket : Bucket) : Option R2Object :=
  findFirstMatch fileId (listUploads bucket)

/-- Result of `checkFileOwnership`: `missing` is `{exists:false, error}`;
`found` carries `owned`, `owner` (`customMetadata.uploadedBy`, possibly
absent), `fileKey`, `file` (from `get`) and `foundObject` (from the list). -/
inductive OwnershipCheck where
  | missing (error : String)
  | found (owned : Bool) (owner : Option String) (fileKey : String)
      (file : R2Object) (foundObject : R2Object)
deriving DecidableEq

/-- `checkFileOwnership(fileId, userId, env)` of `file-security.js` lines
143-188: scan the `uploads/` listing for the first filename starting with
`fileId + '.'`, `get` its key, read `uploadedBy`; `owned` is the strict
equality `uploadedBy === userId` (false when `uploadedBy` is `undefined`). -/
def checkFileOwnership (fileId userId : String) (bucket : Bucket) : OwnershipCheck :=
  match findFirstMatch fileId (listUploads bucket) with
  | none => .missing ("File not found")
  | some fo =>
    match bucketGet bucket fo.key with
    | none => .missing ("File not found")
    | some file =>
      let uploadedBy := List.lookup ("uploadedBy") file.customMetadata
      .found (uploadedBy == some userId) uploadedBy fo.key file fo

/-- The HTTP outcomes of `handleFileAccess`: 400 (`File ID is required`),
403 (`createAccessDeniedResponse` with its message), 404, 401
(`AUTH_REQUIRED`), and the 200 streaming response with body, content type,
original name and the signed-request flag (which only changes the
`Cache-Control` header). -/
inductive AccessResponse where
  | badRequest (error : String)
  | denied (error : String)
  | fileMissing (error : String)
  | authRequired
  | fileOk (body contentType originalName : String) (signed : Bool)
deriving DecidableEq

/-- The request inputs `handleFileAccess` consumes: the
`signature`/`expires`/`user` query parameters and the outcome of the
external `authenticateJWT` middleware (`some uid` when the supplied
credential verified to subject `uid`, `none` on any authentication
failure). -/
structure AccessRequest where
  sigParam : Option String
  expParam : Option String
  userParam : Option String
  principal : Option String
deriving DecidableEq

/-- The 200 response of `access.js` lines 128-152: body from the fetched
file, original name `customMetadata.originalName || <last key segment>`,
content type
`customMetadata.contentType || httpMetadata.contentType || 'application/octet-stream'`
(JS `||`, so empty strings fall through). -/
def fileOkOf (file foundObject : R2Object) (isSigned : Bool) : AccessResponse :=
  let originalName :=
    jsOrStr (List.lookup ("originalName") file.customMetadata) (lastSegment foundObject.key)
  let contentType :=
    jsOrStr (List.lookup ("contentType") file.customMetadata)
      (jsOrStr (List.lookup ("contentType") file.httpMetadata) ("application/octet-stream"))
  .fileOk file.body contentType originalName isSigned

/-- `ownershipCheck.file.customMetadata?.isPublic === 'true'`
(`access.js` line 87). -/
def isPublicOf (file : R2Object) : Bool :=
  List.lookup ("isPublic") file.customMetadata == some ("true")

/-- `authResult && authResult.user && ownershipCheck.owner === authResult.user.id`
(`access.js` line 99): the effective user exists and equals the stored
owner. -/
def ownerMatch (auth owner : Option String) : Bool :=
  match auth with
  | some uid => owner == some uid
  | none => false

/-- The body of the `try` block of `access.js` lines 51-152, after the
signed-URL branch fixed `auth` (the effective user id), `isSigned` and
`isAnon`: the `!fileId` check, the existence check (`checkFileOwnership`
with user `'anonymous'`), the `isPublic === 'true'` test and the four-way
access decision. -/
def accessDecision (fileId : String) (auth : Option String) (isSigned isAnon : Bool)
    (bucket : Bucket) : AccessResponse :=
  if fileId == ("") then .badRequest ("File ID is required")
  else
    match checkFileOwnership fileId ("anonymous") bucket with
    | .missing e => .fileMissing e
    | .found _ owner _ file fo =>
      if isPublicOf file then fileOkOf file fo isSigned
      else if isSigned then fileOkOf file fo isSigned
      else if ownerMatch auth owner then fileOkOf file fo isSigned
      else if isAnon then .authRequired
      else .denied ("You can only download your own files or public files")

/-- `handleFileAccess(fileId, request, env)` of `handlers/access.js`: when
both `signature` and `expires` are truthy the request is a signed-URL
request and `verifySignedUrl` runs first — a failure is answered with
`createAccessDeniedResponse` (403) before anything else; on success the
token's user becomes the effective user.  Otherwise the JWT outcome decides
between an authenticated and an anonymous request.  Then the decision body
runs. -/
def handleFileAccess (fileId : String) (req : AccessRequest) (secret : String)
    (bucket : Bucket) (now : Nat) : AccessResponse :=
  if !(isFalsy req.sigParam) && !(isFalsy req.expParam) then
    match verifySignedUrl fileId req.sigParam req.expParam req.userParam secret now with
    | .invalid e => .denied e
    | .valid uid _ _ => accessDecision fileId (some uid) true false bucket
  else
    accessDecision fileId req.principal false req.principal.isNone bucket

/-- Outcome of `await request.json()` followed by reading `isPublic`:
`Except.error ()` when parsing threw (caught by the handler's `catch`),
`Except.ok (some b)` when the parsed body's `isPublic` member is the boolean
`b`, and `Except.ok none` when it parsed but `isPublic` is not a boolean. -/
abbrev BodyParse := Except Unit (Option Bool)

/-- The HTTP outcomes of `handleTogglePublic`: 401 from the middleware, 400
(`isPublic must be a boolean value`), 404, 403, the 200 success carrying
`fileId` and `isPublic`, and the 500 of the `catch` block. -/
inductive ToggleResponse where
  | unauthorized
  | badRequest
  | fileMissing
  | denied
  | ok (fileId : String) (isPublic : Bool)
  | serverError
deriving DecidableEq

/-- The updated metadata object
`{...existingMetadata, isPublic: isPublic.toString(), lastModified: <now>}`
of `public.js` lines 65-70, as the association list realizing the same
key-value map: old bindings of the two overwritten keys are dropped and the
new bindings appended. -/
def spreadUpdate (m : List (String × String)) (isPublic : Bool) (nowIso : String) :
    List (String × String) :=
  m.filter (fun p => !(p.1 == ("isPublic") || p.1 == ("lastModified")))
    ++ [(("isPublic"), if isPublic then ("true") else ("false")), (("lastModified"), nowIso)]

/-- `CONTENT_BUCKET.put(key, body, options)`: overwrite the object stored at
`key`, or append it when the key is new. -/
def bucketPut (bucket : Bucket) (obj : R2Object) : Bucket :=
  if bucket.any (fun o => o.key == obj.key) then
    bucket.map (fun o => if o.key == obj.key then obj else o)
  else bucket ++ [obj]

/-- `handleTogglePublic(fileId, request, env)` of `handlers/public.js`:
authenticate; parse the body (a throw lands in the `catch` → 500); reject a
non-boolean `isPublic` with 400; then `checkFileOwnership` → 404 / 403; on
success rewrite the object at its existing key with the updated custom
metadata and the preserved `httpMetadata`.  Returns the response together
with the resulting bucket. -/
def handleTogglePublic (fileId : String) (principal : Option String) (body : BodyParse)
    (bucket : Bucket) (nowIso : String) : ToggleResponse × Bucket :=
  match principal with
  | none => (.unauthorized, bucket)
  | some uid =>
    match body with
    | .error _ => (.serverError, bucket)
    | .ok v =>
      match v with
      | none => (.badRequest, bucket)
      | some isPublic =>
        match checkFileOwnership fileId uid bucket with
        | .missing _ => (.fileMissing, bucket)
        | .found owned _ fileKey file _ =>
          if owned then
            let newObj : R2Object :=
              { key := fileKey,
                customMetadata := spreadUpdate file.customMetadata isPublic nowIso,
                httpMetadata := file.httpMetadata,
                body := file.body }
            (.ok fileId isPublic, bucketPut bucket newObj)
          else (.denied, bucket)

/-! ## General lemmas -/

theorem findFirstMatch_eq_find? (fileId : String) (l : List R2Object) :
    findFirstMatch fileId l = l.find? (fun o => fileNameMatches fileId o.key) := by
  induction l with
  | nil => rfl
  | cons o rest ih =>
    by_cases h : fileNameMatches fileId o.key
    · simp [findFirstMatch, List.find?_cons, h]
    · simp only [Bool.not_eq_true] at h
      simp [findFirstMatch, List.find?_cons, h, ih]

theorem fileNameMatches_exact (fileId key : String) (h : lastSegment key = fileId) :
    fileNameMatches fileId key = false := by
  unfold fileNameMatches
  rw [h]
  have hpre : jsStartsWith fileId (fileId ++ (".")) = false := by
    rw [Bool.eq_false_iff]
    intro hcon
    have hp := List.isPrefixOf_iff_prefix.mp hcon
    have hlen := hp.length_le
    rw [String.data_append, List.length_append] at hlen
    simp at hlen
  simp [hpre]

theorem handleFileAccess_token (fileId : String) (req : AccessRequest) (secret : String)
    (bucket : Bucket) (now : Nat)
    (hc : (!(isFalsy req.sigParam) && !(isFalsy req.expParam)) = true) :
    handleFileAccess fileId req secret bucket now
      = match verifySignedUrl fileId req.sigParam req.expParam req.userParam secret now with
        | .invalid e => .denied e
        | .valid uid _ _ => accessDecision fileId (some uid) true false bucket := by
  unfold handleFileAccess
  rw [if_pos hc]

theorem handleFileAccess_noToken (fileId : String) (req : AccessRequest) (secret : String)
    (bucket : Bucket) (now : Nat)
    (hc : (!(isFalsy req.sigParam) && !(isFalsy req.expParam)) = false) :
    handleFileAccess fileId req secret bucket now
      = accessDecision fileId req.principal false req.principal.isNone bucket := by
  unfold handleFileAccess
  rw [if_neg (by simp [hc])]

theorem accessDecision_missing (fileId : String) (auth : Option String) (sg an : Bool)
    (bucket : Bucket) (e : String) (hid : fileId ≠ (""))
    (hmiss : checkFileOwnership fileId ("anonymous") bucket = .missing e) :
    accessDecision fileId auth sg an bucket = .fileMissing e := by
  unfold accessDecision
  rw [if_neg (by simpa using hid), hmiss]

theorem accessDecision_found (fileId : String) (auth : Option String) (sg an : Bool)
    (bucket : Bucket) (owned : Bool) (owner : Option String) (key : String)
    (file fo : R2Object) (hid : fileId ≠ (""))
    (hfound : checkFileOwnership fileId ("anonymous") bucket = .found owned owner key file fo) :
    accessDecision fileId auth sg an bucket
      = (if isPublicOf file then fileOkOf file fo sg
         else if sg then fileOkOf file fo sg
         else if ownerMatch auth owner then fileOkOf file fo sg
         else if an then .authRequired
         else .denied ("You can only download your own files or public files")) := by
  unfold accessDecision
  rw [if_neg (by simpa using hid), hfound]

/-- C9: object resolution returns the first object of the `uploads/` listing
whose filename portion starts with `fileId + '.'`; an object whose filename
portion is exactly `fileId` (no dot-separated extension) never matches, so
when every listed object has that form the lookup reports the file as
missing even though the object is stored. -/
theorem C9_resolution_skips_extensionless (fileId : String) (bucket : Bucket) :
    findFileInStorage fileId bucket
        = (listUploads bucket).find? (fun o => fileNameMatches fileId o.key)
      ∧ (∀ o : R2Object, lastSegment o.key = fileId → fileNameMatches fileId o.key = false)
      ∧ ((∀ o ∈ listUploads bucket, lastSegment o.key = fileId) →
          findFileInStorage fileId bucket = none) := by
  refine ⟨findFirstMatch_eq_find? fileId (listUploads bucket),
    fun o h => fileNameMatches_exact fileId o.key h, fun hall => ?_⟩
  rw [findFileInStorage, findFirstMatch_eq_find?, List.find?_eq_none]
  intro o ho
  simp [fileNameMatches_exact fileId o.key (hall o ho)]

/-- Witness for C9: a bucket holding exactly `uploads/2024/01/f1` (a key with
no extension, marked public) resolves `f1` to nothing. -/
theorem C9_witness :
    findFileInStorage ("f1")
      ([R2Object.mk ("uploads/2024/01/f1") ([(("isPublic"), ("true"))]) ([]) ("B")]) = none :=
  (C9_resolution_skips_extensionless ("f1")
    ([R2Object.mk ("uploads/2024/01/f1") ([(("isPublic"), ("true"))]) ([]) ("B")])).2.2
    (by decide)

/-- C5: no error path grants.  For an existing private object the handler
streams the file only when the supplied capability-token parameters verified
(`verifySignedUrl` succeeded) or the verified principal is the object's
owner; every other path ends in a non-200 response. -/
theorem C5_no_silent_grant (fileId : String) (req : AccessRequest) (secret : String)
    (bucket : Bucket) (now : Nat) (owned : Bool) (owner : Option String) (key : String)
    (file fo : R2Object) (bdy ct nm : String) (sg : Bool)
    (hfound : checkFileOwnership fileId ("anonymous") bucket = .found owned owner key file fo)
    (hpriv : List.lookup ("isPublic") file.customMetadata ≠ some ("true"))
    (hres : handleFileAccess fileId req secret bucket now = .fileOk bdy ct nm sg) :
    (∃ u f e, verifySignedUrl fileId req.sigParam req.expParam req.userParam secret now
        = .valid u f e)
      ∨ (∃ uid, req.principal = some uid ∧ owner = some uid) := by
  have hpub : isPublicOf file = false := by
    simp [isPublicOf, hpriv]
  by_cases hid : fileId = ("")
  · by_cases hc : (!(isFalsy req.sigParam) && !(isFalsy req.expParam)) = true
    · rw [handleFileAccess_token fileId req secret bucket now hc] at hres
      cases hver : verifySignedUrl fileId req.sigParam req.expParam req.userParam secret now with
      | invalid e => rw [hver] at hres; simp at hres
      | valid u f e => exact Or.inl ⟨u, f, e, rfl⟩
    · rw [handleFileAccess_noToken fileId req secret bucket now (by simpa using hc)] at hres
      unfold accessDecision at hres
      rw [if_pos (by simpa using hid)] at hres
      simp at hres
  · by_cases hc : (!(isFalsy req.sigParam) && !(isFalsy req.expParam)) = true
    · rw [handleFileAccess_token fileId req secret bucket now hc] at hres
      cases hver : verifySignedUrl fileId req.sigParam req.expParam req.userParam secret now with
      | invalid e => rw [hver] at hres; simp at hres
      | valid u f e => exact Or.inl ⟨u, f, e, rfl⟩
    · rw [handleFileAccess_noToken fileId req secret bucket now (by simpa using hc),
        accessDecision_found fileId req.principal false req.principal.isNone bucket
          owned owner key file fo hid hfound, hpub] at hres
      simp only [Bool.false_eq_true, if_false] at hres
      cases hp : req.principal with
      | some uid =>
        rw [hp] at hres
        by_cases howner : ownerMatch (some uid) owner = true
        · refine Or.inr ⟨uid, rfl, ?_⟩
          simpa [ownerMatch] using howner
        · rw [Bool.eq_false_iff.mpr howner] at hres
          simp at hres
      | none =>
        rw [hp] at hres
        simp [ownerMatch] at hres

/-- Witness for C5: a concrete owner-grant run on a private object, where
the theorem certifies the grant came from the owner check. -/
theorem C5_witness :
    (∃ u f e, verifySignedUrl ("f1") none none none ("s") 0 = .valid u f e)
      ∨ (∃ uid, (some ("u1") : Option String) = some uid
          ∧ (some ("u1") : Option String) = some uid) :=
  C5_no_silent_grant ("f1")
    (AccessRequest.mk none none none (some ("u1"))) ("s")
    ([R2Object.mk ("uploads/2024/01/f1.txt")
        ([(("uploadedBy"), ("u1")), (("originalName"), ("a.txt"))])
        ([(("contentType"), ("text/plain"))]) ("B")]) 0
    false (some ("u1")) ("uploads/2024/01/f1.txt")
    (R2Object.mk ("uploads/2024/01/f1.txt")
        ([(("uploadedBy"), ("u1")), (("originalName"), ("a.txt"))])
        ([(("contentType"), ("text/plain"))]) ("B"))
    (R2Object.mk ("uploads/2024/01/f1.txt")
        ([(("uploadedBy"), ("u1")), (("originalName"), ("a.txt"))])
        ([(("contentType"), ("text/plain"))]) ("B"))
    ("B") ("text/plain") ("a.txt") false
    (by decide) (by decide) (by decide)

/-- C1 (amended): a stored public object is streamed for every credential
state and for every token state that does not carry a complete failing
(signature, expires) pair — i.e. when at least one of the two parameters is
absent/empty, or the supplied pair verifies.  (A complete pair that fails
verification is answered 403 before the public check; see the
counterexample.) -/
theorem C1_public_grant_amended (fileId : String) (req : AccessRequest) (secret : String)
    (bucket : Bucket) (now : Nat) (owned : Bool) (owner : Option String) (key : String)
    (file fo : R2Object)
    (hid : fileId ≠ (""))
    (hfound : checkFileOwnership fileId ("anonymous") bucket = .found owned owner key file fo)
    (hpub : List.lookup ("isPublic") file.customMetadata = some ("true"))
    (htok : isFalsy req.sigParam = true ∨ isFalsy req.expParam = true
      ∨ ∃ u f e, verifySignedUrl fileId req.sigParam req.expParam req.userParam secret now
          = .valid u f e) :
    ∃ sg, handleFileAccess fileId req secret bucket now = fileOkOf file fo sg := by
  have hpb : isPublicOf file = true := by simp [isPublicOf, hpub]
  by_cases hc : (!(isFalsy req.sigParam) && !(isFalsy req.expParam)) = true
  · have hver : ∃ u f e,
        verifySignedUrl fileId req.sigParam req.expParam req.userParam secret now
          = .valid u f e := by
      rcases htok with h | h | h
      · exfalso; simp [h] at hc
      · exfalso; simp [h] at hc
      · exact h
    obtain ⟨u, f, e, hver⟩ := hver
    refine ⟨true, ?_⟩
    rw [handleFileAccess_token fileId req secret bucket now hc, hver]
    show accessDecision fileId (some u) true false bucket = fileOkOf file fo true
    rw [accessDecision_found fileId (some u) true false bucket owned owner key file fo hid hfound]
    simp [hpb]
  · refine ⟨false, ?_⟩
    rw [handleFileAccess_noToken fileId req secret bucket now (by simpa using hc),
      accessDecision_found fileId req.principal false req.principal.isNone bucket
        owned owner key file fo hid hfound]
    simp [hpb]

/-- Witness for C1 (amended): an anonymous, token-free request for a stored
public object is streamed. -/
theorem C1_witness :
    ∃ sg, handleFileAccess ("f1") (AccessRequest.mk none none none none) ("s")
      ([R2Object.mk ("uploads/2024/01/f1.txt")
          ([(("isPublic"), ("true")), (("uploadedBy"), ("u1"))]) ([]) ("B")]) 0
      = fileOkOf
          (R2Object.mk ("uploads/2024/01/f1.txt")
            ([(("isPublic"), ("true")), (("uploadedBy"), ("u1"))]) ([]) ("B"))
          (R2Object.mk ("uploads/2024/01/f1.txt")
            ([(("isPublic"), ("true")), (("uploadedBy"), ("u1"))]) ([]) ("B")) sg :=
  C1_public_grant_amended ("f1") (AccessRequest.mk none none none none) ("s")
    ([R2Object.mk ("uploads/2024/01/f1.txt")
        ([(("isPublic"), ("true")), (("uploadedBy"), ("u1"))]) ([]) ("B")]) 0
    false (some ("u1")) ("uploads/2024/01/f1.txt")
    (R2Object.mk ("uploads/2024/01/f1.txt")
      ([(("isPublic"), ("true")), (("uploadedBy"), ("u1"))]) ([]) ("B"))
    (R2Object.mk ("uploads/2024/01/f1.txt")
      ([(("isPublic"), ("true")), (("uploadedBy"), ("u1"))]) ([]) ("B"))
    (by decide) (by decide) (by decide) (Or.inl (by decide))

/-- Counterexample to C1 as stated: a stored public object requested with a
complete capability-token pair whose signature is wrong is answered 403
(`Invalid signature`), not streamed — the token branch runs before the
public check. -/
theorem C1_counterexample :
    handleFileAccess ("f1")
        (AccessRequest.mk (some ("bad")) (some ("999")) (some ("u2")) none) ("s")
        ([R2Object.mk ("uploads/2024/01/f1.txt")
            ([(("isPublic"), ("true")), (("uploadedBy"), ("u1"))]) ([]) ("B")]) 0
      = .denied ("Invalid signature")
    ∧ List.lookup ("isPublic")
        (R2Object.mk ("uploads/2024/01/f1.txt")
          ([(("isPublic"), ("true")), (("uploadedBy"), ("u1"))]) ([]) ("B")).customMetadata
      = some ("true") := by
  decide

/-- C2 (amended): a fileId that resolves to no stored object is answered 404
for every credential state and for every token state that does not carry a
complete failing (signature, expires) pair; a complete failing pair is
answered 403 by the token branch before the existence check. -/
theorem C2_not_found_amended (fileId : String) (req : AccessRequest) (secret : String)
    (bucket : Bucket) (now : Nat) (e : String)
    (hid : fileId ≠ (""))
    (hmiss : checkFileOwnership fileId ("anonymous") bucket = .missing e)
    (htok : isFalsy req.sigParam = true ∨ isFalsy req.expParam = true
      ∨ ∃ u f ex, verifySignedUrl fileId req.sigParam req.expParam req.userParam secret now
          = .valid u f ex) :
    handleFileAccess fileId req secret bucket now = .fileMissing e := by
  by_cases hc : (!(isFalsy req.sigParam) && !(isFalsy req.expParam)) = true
  · have hver : ∃ u f ex,
        verifySignedUrl fileId req.sigParam req.expParam req.userParam secret now
          = .valid u f ex := by
      rcases htok with h | h | h
      · exfalso; simp [h] at hc
      · exfalso; simp [h] at hc
      · exact h
    obtain ⟨u, f, ex, hver⟩ := hver
    rw [handleFileAccess_token fileId req secret bucket now hc, hver]
    show accessDecision fileId (some u) true false bucket = .fileMissing e
    rw [accessDecision_missing fileId (some u) true false bucket e hid hmiss]
  · rw [handleFileAccess_noToken fileId req secret bucket now (by simpa using hc),
      accessDecision_missing fileId req.principal false req.principal.isNone bucket e hid hmiss]

/-- Witness for C2 (amended): an anonymous, token-free request for an
unknown id on an empty bucket is answered 404. -/
theorem C2_witness :
    handleFileAccess ("f1") (AccessRequest.mk none none none none) ("s") ([]) 0
      = .fileMissing ("File not found") :=
  C2_not_found_amended ("f1") (AccessRequest.mk none none none none) ("s") ([]) 0
    ("File not found") (by decide) (by decide) (Or.inl (by decide))

/-- Counterexample to C2 as stated: on an empty bucket, a request for a
nonexistent id carrying a complete failing token pair is answered 403
(`Invalid signature`), not 404 — token verification runs before the
existence check. -/
theorem C2_counterexample :
    handleFileAccess ("f1")
        (AccessRequest.mk (some ("bad")) (some ("999")) (some ("u2")) none) ("s") ([]) 0
      = .denied ("Invalid signature")
    ∧ checkFileOwnership ("f1") ("anonymous") ([]) = .missing ("File not found") := by
  decide

/-- C3 (amended): a token whose `expires` parameter parses strictly below
`now` is rejected with `URL has expired`, whatever the signature; the
boundary `expiresAt = now` is accepted (strict `<` in the source), see the
counterexample. -/
theorem C3_expiry_amended (fileId : String) (sig exp user : Option String)
    (secret : String) (now e : Nat)
    (hs : isFalsy sig = false) (hx : isFalsy exp = false) (hu : isFalsy user = false)
    (hparse : parseIntJS (exp.getD ("")) = some e) (hlt : e < now) :
    verifySignedUrl fileId sig exp user secret now = .invalid ("URL has expired") := by
  unfold verifySignedUrl
  rw [if_neg (by simp [hs, hx, hu])]
  rw [if_pos (by rw [hparse]; simpa using hlt)]

/-- Witness for C3 (amended): a token expiring at 5 is rejected at time 10. -/
theorem C3_witness :
    verifySignedUrl ("f") (some ("x")) (some ("5")) (some ("u")) ("s") 10
      = .invalid ("URL has expired") :=
  C3_expiry_amended ("f") (some ("x")) (some ("5")) (some ("u")) ("s") 10 5
    (by decide) (by decide) (by decide) (by decide) (by decide)

/-- Counterexample to C3 as stated: a correctly signed token with
`expiresAt = now` (here both 100) verifies successfully — `expiresAt ≤ now`
does not imply rejection, because the source tests `parseInt(expires) < now`
strictly. -/
theorem C3_counterexample :
    100 ≤ 100
    ∧ verifySignedUrl ("f") (some (sigOf ("f") ("u") ("100") ("s"))) (some ("100"))
        (some ("u")) ("s") 100
      = .valid ("u") ("f") (some 100) := by
  exact ⟨le_refl 100, by decide⟩

/-- C4 (amended): on an existing private object, for every request that does
not carry a complete (signature, expires) pair: an owner principal is
streamed the file, a non-owner principal is answered 403, and no principal
is answered 401.  (A request carrying a complete failing pair is answered
403 for every credential state, including no credential; see the
counterexample.) -/
theorem C4_private_cases_amended (fileId : String) (req : AccessRequest) (secret : String)
    (bucket : Bucket) (now : Nat) (owned : Bool) (owner : Option String) (key : String)
    (file fo : R2Object)
    (hid : fileId ≠ (""))
    (hfound : checkFileOwnership fileId ("anonymous") bucket = .found owned owner key file fo)
    (hpriv : List.lookup ("isPublic") file.customMetadata ≠ some ("true"))
    (hnotok : (!(isFalsy req.sigParam) && !(isFalsy req.expParam)) = false) :
    (∀ uid, req.principal = some uid → owner = some uid →
        handleFileAccess fileId req secret bucket now = fileOkOf file fo false)
    ∧ (∀ uid, req.principal = some uid → owner ≠ some uid →
        handleFileAccess fileId req secret bucket now
          = .denied ("You can only download your own files or public files"))
    ∧ (req.principal = none →
        handleFileAccess fileId req secret bucket now = .authRequired) := by
  have hpb : isPublicOf file = false := by simp [isPublicOf, hpriv]
  have hbase := handleFileAccess_noToken fileId req secret bucket now hnotok
  refine ⟨fun uid hp how => ?_, fun uid hp how => ?_, fun hp => ?_⟩
  · rw [hbase, accessDecision_found fileId req.principal false req.principal.isNone bucket
      owned owner key file fo hid hfound]
    have hm : ownerMatch req.principal owner = true := by simp [ownerMatch, hp, how]
    simp [hpb, hm]
  · rw [hbase, accessDecision_found fileId req.principal false req.principal.isNone bucket
      owned owner key file fo hid hfound]
    have hm : ownerMatch req.principal owner = false := by simp [ownerMatch, hp, how]
    have han : req.principal.isNone = false := by simp [hp]
    simp [hpb, hm, han]
  · rw [hbase, accessDecision_found fileId req.principal false req.principal.isNone bucket
      owned owner key file fo hid hfound]
    have hm : ownerMatch req.principal owner = false := by simp [ownerMatch, hp]
    have han : req.principal.isNone = true := by simp [hp]
    simp [hpb, hm, han]

/-- Witness for C4 (amended): on a private object owned by `u1`, a request
authenticated as `u2` without token parameters is answered 403. -/
theorem C4_witness :
    handleFileAccess ("f1") (AccessRequest.mk none none none (some ("u2"))) ("s")
      ([R2Object.mk ("uploads/2024/01/f1.txt")
          ([(("uploadedBy"), ("u1"))]) ([]) ("B")]) 0
      = .denied ("You can only download your own files or public files") :=
  (C4_private_cases_amended ("f1") (AccessRequest.mk none none none (some ("u2"))) ("s")
    ([R2Object.mk ("uploads/2024/01/f1.txt") ([(("uploadedBy"), ("u1"))]) ([]) ("B")]) 0
    false (some ("u1")) ("uploads/2024/01/f1.txt")
    (R2Object.mk ("uploads/2024/01/f1.txt") ([(("uploadedBy"), ("u1"))]) ([]) ("B"))
    (R2Object.mk ("uploads/2024/01/f1.txt") ([(("uploadedBy"), ("u1"))]) ([]) ("B"))
    (by decide) (by decide) (by decide) (by decide)).2.1
    ("u2") rfl (by decide)

/-- Counterexample to C4 as stated: on an existing private object, a request
with no principal and no valid capability token — it carries a complete
token pair that fails verification — is answered 403 (`Invalid signature`),
not 401. -/
theorem C4_counterexample :
    handleFileAccess ("f1")
        (AccessRequest.mk (some ("bad")) (some ("999")) (some ("u2")) none) ("s")
        ([R2Object.mk ("uploads/2024/01/f1.txt")
            ([(("uploadedBy"), ("u1"))]) ([]) ("B")]) 0
      = .denied ("Invalid signature")
    ∧ List.lookup ("isPublic")
        (R2Object.mk ("uploads/2024/01/f1.txt")
          ([(("uploadedBy"), ("u1"))]) ([]) ("B")).customMetadata
      ≠ some ("true") := by
  decide

/-! ## Toggle lemmas -/

theorem find?_map_put (l : List R2Object) (obj : R2Object)
    (h : l.any (fun o => o.key == obj.key) = true) :
    (l.map (fun o => if o.key == obj.key then obj else o)).find? (fun o => o.key == obj.key)
      = some obj := by
  induction l with
  | nil => simp at h
  | cons o rest ih =>
    rw [List.map_cons, List.find?_cons]
    by_cases hk : (o.key == obj.key) = true
    · have hfo : (if o.key == obj.key then obj else o) = obj := if_pos hk
      rw [hfo]
      simp
    · have h' : rest.any (fun o => o.key == obj.key) = true := by
        rcases List.any_eq_true.mp h with ⟨x, hx, hpx⟩
        rcases List.mem_cons.mp hx with rfl | hx'
        · exact absurd hpx hk
        · exact List.any_eq_true.mpr ⟨x, hx', hpx⟩
      have hk' : (o.key == obj.key) = false := by simpa using hk
      have hfo : (if o.key == obj.key then obj else o) = o := if_neg (by simpa using hk)
      rw [hfo, hk']
      exact ih h'

theorem bucketGet_bucketPut_self (bucket : Bucket) (obj : R2Object)
    (h : bucket.any (fun o => o.key == obj.key) = true) :
    bucketGet (bucketPut bucket obj) obj.key = some obj := by
  unfold bucketPut bucketGet
  rw [if_pos h]
  exact find?_map_put bucket obj h

theorem checkFileOwnership_found_get (fileId userId : String) (bucket : Bucket)
    (owned : Bool) (owner : Option String) (key : String) (file fo : R2Object)
    (h : checkFileOwnership fileId userId bucket = .found owned owner key file fo) :
    bucketGet bucket key = some file := by
  unfold checkFileOwnership at h
  split at h
  · simp at h
  case _ fo2 heq =>
    split at h
    · simp at h
    case _ file2 hg =>
      simp only [OwnershipCheck.found.injEq] at h
      obtain ⟨-, -, h3, h4, -⟩ := h
      rw [h3, h4] at hg
      exact hg

theorem lookup_spreadUpdate_other (m : List (String × String)) (b : Bool) (ts k : String)
    (h1 : k ≠ ("isPublic")) (h2 : k ≠ ("lastModified")) :
    List.lookup k (spreadUpdate m b ts) = List.lookup k m := by
  have hk1 : (k == ("isPublic")) = false := by simpa using h1
  have hk2 : (k == ("lastModified")) = false := by simpa using h2
  unfold spreadUpdate
  induction m with
  | nil =>
    simp only [List.filter_nil, List.nil_append]
    simp [List.lookup, hk1, hk2]
  | cons p rest ih =>
    obtain ⟨a, v⟩ := p
    rw [List.filter_cons]
    by_cases hk : (!(a == ("isPublic") || a == ("lastModified"))) = true
    · rw [if_pos hk]
      by_cases hka : (k == a) = true
      · simp only [List.cons_append, List.lookup, hka]
      · have hka' : (k == a) = false := by simpa using hka
        simp only [List.cons_append, List.lookup, hka']
        exact ih
    · rw [if_neg hk]
      have ha : a = ("isPublic") ∨ a = ("lastModified") := by
        by_contra hcon
        push_neg at hcon
        exact hk (by simp [hcon.1, hcon.2])
      have hka : (k == a) = false := by
        rcases ha with rfl | rfl
        · exact hk1
        · exact hk2
      simp only [List.lookup, hka]
      exact ih

theorem lookup_spreadUpdate_isPublic (m : List (String × String)) (b : Bool) (ts : String) :
    List.lookup ("isPublic") (spreadUpdate m b ts)
      = some (if b then ("true") else ("false")) := by
  unfold spreadUpdate
  induction m with
  | nil => simp [List.lookup]
  | cons p rest ih =>
    obtain ⟨a, v⟩ := p
    rw [List.filter_cons]
    by_cases hk : (!(a == ("isPublic") || a == ("lastModified"))) = true
    · rw [if_pos hk]
      have ha : (("isPublic" : String) == a) = false := by
        have : a ≠ ("isPublic") := by
          intro rfl1
          subst rfl1
          simp at hk
        simpa using this.symm
      simp only [List.cons_append, List.lookup, ha]
      exact ih
    · rw [if_neg hk]
      exact ih

theorem lookup_spreadUpdate_lastModified (m : List (String × String)) (b : Bool) (ts : String) :
    List.lookup ("lastModified") (spreadUpdate m b ts) = some ts := by
  unfold spreadUpdate
  induction m with
  | nil => simp [List.lookup]
  | cons p rest ih =>
    obtain ⟨a, v⟩ := p
    rw [List.filter_cons]
    by_cases hk : (!(a == ("isPublic") || a == ("lastModified"))) = true
    · rw [if_pos hk]
      have ha : (("lastModified" : String) == a) = false := by
        have : a ≠ ("lastModified") := by
          intro rfl1
          subst rfl1
          simp at hk
        simpa using this.symm
      simp only [List.cons_append, List.lookup, ha]
      exact ih
    · rw [if_neg hk]
      exact ih

/-- C8 (amended): with an authenticated requester, `PUT /access/{fileId}/public`
answers 500 when the body is not parseable JSON (the parse throws inside the
`try`, landing in the `catch`), 400 when it parses but `isPublic` is not a
boolean (checked before existence), 404 when the body is well-formed and no
object matches, 403 when the object exists but the requester is not its
owner, and 200 when the requester owns it. -/
theorem C8_toggle_statuses_amended (fileId uid : String) (body : BodyParse)
    (bucket : Bucket) (nowIso : String) :
    (body = .error () →
        (handleTogglePublic fileId (some uid) body bucket nowIso).1 = .serverError)
    ∧ (body = .ok none →
        (handleTogglePublic fileId (some uid) body bucket nowIso).1 = .badRequest)
    ∧ (∀ b e, body = .ok (some b) →
        checkFileOwnership fileId uid bucket = .missing e →
        (handleTogglePublic fileId (some uid) body bucket nowIso).1 = .fileMissing)
    ∧ (∀ b owned owner key file fo, body = .ok (some b) →
        checkFileOwnership fileId uid bucket = .found owned owner key file fo →
        owned = false →
        (handleTogglePublic fileId (some uid) body bucket nowIso).1 = .denied)
    ∧ (∀ b owned owner key file fo, body = .ok (some b) →
        checkFileOwnership fileId uid bucket = .found owned owner key file fo →
        owned = true →
        (handleTogglePublic fileId (some uid) body bucket nowIso).1 = .ok fileId b) := by
  refine ⟨fun h => by subst h; rfl, fun h => by subst h; rfl,
    fun b e hb hchk => ?_, fun b owned owner key file fo hb hchk how => ?_,
    fun b owned owner key file fo hb hchk how => ?_⟩
  · subst hb
    simp [handleTogglePublic, hchk]
  · subst hb; subst how
    simp [handleTogglePublic, hchk]
  · subst hb; subst how
    simp [handleTogglePublic, hchk]

/-- Witness for C8 (amended): on a concrete owned object, a non-boolean
`isPublic` is answered 400. -/
theorem C8_witness :
    (handleTogglePublic ("f1") (some ("u1")) (Except.ok none) ([]) ("t")).1
      = .badRequest :=
  (C8_toggle_statuses_amended ("f1") ("u1") (Except.ok none) ([]) ("t")).2.1 rfl

/-- Counterexample to C8 as stated: the owner of an existing object sending
a body that is not valid JSON gets 500 (`Failed to update file status` from
the `catch` block), not the claimed 400. -/
theorem C8_counterexample :
    (handleTogglePublic ("f1") (some ("u1")) (Except.error ())
        ([R2Object.mk ("uploads/2024/01/f1.txt")
            ([(("uploadedBy"), ("u1"))]) ([]) ("B")]) ("t")).1
      = .serverError
    ∧ checkFileOwnership ("f1") ("u1")
        ([R2Object.mk ("uploads/2024/01/f1.txt")
            ([(("uploadedBy"), ("u1"))]) ([]) ("B")])
      = .found true (some ("u1")) ("uploads/2024/01/f1.txt")
          (R2Object.mk ("uploads/2024/01/f1.txt") ([(("uploadedBy"), ("u1"))]) ([]) ("B"))
          (R2Object.mk ("uploads/2024/01/f1.txt") ([(("uploadedBy"), ("u1"))]) ([]) ("B")) := by
  decide

/-- C10: a successful visibility toggle rewrites the object at its existing
storage key; the rewritten object keeps the body and `httpMetadata`, its
custom metadata maps `isPublic` to the new value and `lastModified` to the
fresh timestamp, and maps every other key — in particular `uploadedBy`,
`originalName` and `contentType` — exactly as before. -/
theorem C10_toggle_preserves_frame (fileId uid : String) (b : Bool) (bucket : Bucket)
    (nowIso : String) (owned : Bool) (owner : Option String) (key : String)
    (file fo : R2Object)
    (hchk : checkFileOwnership fileId uid bucket = .found owned owner key file fo)
    (how : owned = true) :
    (handleTogglePublic fileId (some uid) (Except.ok (some b)) bucket nowIso).1
        = .ok fileId b
    ∧ bucketGet (handleTogglePublic fileId (some uid) (Except.ok (some b)) bucket nowIso).2 key
        = some (R2Object.mk key (spreadUpdate file.customMetadata b nowIso)
            file.httpMetadata file.body)
    ∧ (∀ k, k ≠ ("isPublic") → k ≠ ("lastModified") →
        List.lookup k (spreadUpdate file.customMetadata b nowIso)
          = List.lookup k file.customMetadata)
    ∧ List.lookup ("isPublic") (spreadUpdate file.customMetadata b nowIso)
        = some (if b then ("true") else ("false"))
    ∧ List.lookup ("lastModified") (spreadUpdate file.customMetadata b nowIso)
        = some nowIso := by
  subst how
  have hget := checkFileOwnership_found_get fileId uid bucket true owner key file fo hchk
  have hany : bucket.any (fun o => o.key == key) = true := by
    have hsome : (bucket.find? (fun o => o.key == key)).isSome := by
      rw [show bucket.find? (fun o => o.key == key) = bucketGet bucket key from rfl, hget]
      rfl
    rcases List.find?_isSome.mp hsome with ⟨x, hx, hpx⟩
    exact List.any_eq_true.mpr ⟨x, hx, hpx⟩
  refine ⟨by simp [handleTogglePublic, hchk], ?_,
    fun k h1 h2 => lookup_spreadUpdate_other file.customMetadata b nowIso k h1 h2,
    lookup_spreadUpdate_isPublic file.customMetadata b nowIso,
    lookup_spreadUpdate_lastModified file.customMetadata b nowIso⟩
  have hsnd : (handleTogglePublic fileId (some uid) (Except.ok (some b)) bucket nowIso).2
      = bucketPut bucket (R2Object.mk key (spreadUpdate file.customMetadata b nowIso)
          file.httpMetadata file.body) := by
    simp [handleTogglePublic, hchk]
  rw [hsnd]
  exact bucketGet_bucketPut_self bucket
    (R2Object.mk key (spreadUpdate file.customMetadata b nowIso) file.httpMetadata file.body)
    hany

/-- Witness for C10: a concrete toggle run preserving `uploadedBy`,
`originalName`, `contentType` and `httpMetadata`. -/
theorem C10_witness :
    (handleTogglePublic ("f1") (some ("u1")) (Except.ok (some true))
        ([R2Object.mk ("uploads/2024/01/f1.txt")
            ([(("uploadedBy"), ("u1")), (("originalName"), ("a.txt"))])
            ([(("contentType"), ("text/plain"))]) ("B")]) ("t")).1
      = .ok ("f1") true :=
  (C10_toggle_preserves_frame ("f1") ("u1") true
    ([R2Object.mk ("uploads/2024/01/f1.txt")
        ([(("uploadedBy"), ("u1")), (("originalName"), ("a.txt"))])
        ([(("contentType"), ("text/plain"))]) ("B")]) ("t")
    true (some ("u1")) ("uploads/2024/01/f1.txt")
    (R2Object.mk ("uploads/2024/01/f1.txt")
      ([(("uploadedBy"), ("u1")), (("originalName"), ("a.txt"))])
      ([(("contentType"), ("text/plain"))]) ("B"))
    (R2Object.mk ("uploads/2024/01/f1.txt")
      ([(("uploadedBy"), ("u1")), (("originalName"), ("a.txt"))])
      ([(("contentType"), ("text/plain"))]) ("B"))
    (by decide) rfl).1

/-! ## Base64 / signature lemmas -/

theorem b64c_inj : ∀ m, m < 64 → ∀ n, n < 64 → b64c m = b64c n → m = n := by decide

theorem b64c_ne_pad : ∀ n, n < 64 → b64c n ≠ '=' := by decide

theorem btoaBytes_inj : ∀ l1 l2 : List Nat, (∀ x ∈ l1, x < 256) → (∀ x ∈ l2, x < 256) →
    btoaBytes l1 = btoaBytes l2 → l1 = l2
  | [], [], _, _, _ => rfl
  | [], [_], _, _, h => by simp [btoaBytes] at h
  | [], [_, _], _, _, h => by simp [btoaBytes] at h
  | [], _ :: _ :: _ :: _, _, _, h => by simp [btoaBytes] at h
  | [_], [], _, _, h => by simp [btoaBytes] at h
  | [_, _], [], _, _, h => by simp [btoaBytes] at h
  | _ :: _ :: _ :: _, [], _, _, h => by simp [btoaBytes] at h
  | [a], [a2], h1, h2, h => by
      have ha : a < 256 := h1 a (by simp)
      have ha2 : a2 < 256 := h2 a2 (by simp)
      simp only [btoaBytes, List.cons.injEq, and_true] at h
      obtain ⟨e1, e2⟩ := h
      have q1 := b64c_inj _ (by omega) _ (by omega) e1
      have q2 := b64c_inj _ (by omega) _ (by omega) e2
      have : a = a2 := by omega
      rw [this]
  | [a], [a2, b2], h1, h2, h => by
      have hb2 : b2 < 256 := h2 b2 (by simp)
      simp only [btoaBytes, List.cons.injEq, and_true] at h
      obtain ⟨-, -, e3⟩ := h
      exact absurd e3.symm (b64c_ne_pad _ (by omega))
  | [a], a2 :: b2 :: c2 :: r2, h1, h2, h => by
      have hc2 : c2 < 256 := h2 c2 (by simp)
      simp only [btoaBytes, List.cons.injEq] at h
      obtain ⟨-, -, -, e4, -⟩ := h
      exact absurd e4.symm (b64c_ne_pad _ (by omega))
  | [a, b], [a2], h1, h2, h => by
      have hb : b < 256 := h1 b (by simp)
      simp only [btoaBytes, List.cons.injEq, and_true] at h
      obtain ⟨-, -, e3⟩ := h
      exact absurd e3 (b64c_ne_pad _ (by omega))
  | [a, b], [a2, b2], h1, h2, h => by
      have ha : a < 256 := h1 a (by simp)
      have hb : b < 256 := h1 b (by simp)
      have ha2 : a2 < 256 := h2 a2 (by simp)
      have hb2 : b2 < 256 := h2 b2 (by simp)
      simp only [btoaBytes, List.cons.injEq, and_true] at h
      obtain ⟨e1, e2, e3⟩ := h
      have q1 := b64c_inj _ (by omega) _ (by omega) e1
      have q2 := b64c_inj _ (by omega) _ (by omega) e2
      have q3 := b64c_inj _ (by omega) _ (by omega) e3
      have haa : a = a2 := by omega
      have hbb : b = b2 := by omega
      rw [haa, hbb]
  | [a, b], a2 :: b2 :: c2 :: r2, h1, h2, h => by
      have hc2 : c2 < 256 := h2 c2 (by simp)
      simp only [btoaBytes, List.cons.injEq] at h
      obtain ⟨-, -, -, e4, -⟩ := h
      exact absurd e4.symm (b64c_ne_pad _ (by omega))
  | a :: b :: c :: r, [a2], h1, h2, h => by
      have hc : c < 256 := h1 c (by simp)
      simp only [btoaBytes, List.cons.injEq] at h
      obtain ⟨-, -, -, e4, -⟩ := h
      exact absurd e4 (b64c_ne_pad _ (by omega))
  | a :: b :: c :: r, [a2, b2], h1, h2, h => by
      have hc : c < 256 := h1 c (by simp)
      simp only [btoaBytes, List.cons.injEq] at h
      obtain ⟨-, -, -, e4, -⟩ := h
      exact absurd e4 (b64c_ne_pad _ (by omega))
  | a :: b :: c :: r, a2 :: b2 :: c2 :: r2, h1, h2, h => by
      have ha : a < 256 := h1 a (by simp)
      have hb : b < 256 := h1 b (by simp)
      have hc : c < 256 := h1 c (by simp)
      have ha2 : a2 < 256 := h2 a2 (by simp)
      have hb2 : b2 < 256 := h2 b2 (by simp)
      have hc2 : c2 < 256 := h2 c2 (by simp)
      simp only [btoaBytes, List.cons.injEq] at h
      obtain ⟨e1, e2, e3, e4, e5⟩ := h
      have q1 := b64c_inj _ (by omega) _ (by omega) e1
      have q2 := b64c_inj _ (by omega) _ (by omega) e2
      have q3 := b64c_inj _ (by omega) _ (by omega) e3
      have q4 := b64c_inj _ (by omega) _ (by omega) e4
      have hr := btoaBytes_inj r r2 (fun x hx => h1 x (by simp [hx]))
        (fun x hx => h2 x (by simp [hx])) e5
      have haa : a = a2 := by omega
      have hbb : b = b2 := by omega
      have hcc : c = c2 := by omega
      rw [haa, hbb, hcc, hr]

theorem char_toNat_injective : Function.Injective Char.toNat := by
  intro c d h
  have h1 := Char.ofNat_toNat c
  have h2 := Char.ofNat_toNat d
  rw [← h1, ← h2, h]

theorem strToBytes_inj (s1 s2 : String) (h : strToBytes s1 = strToBytes s2) : s1 = s2 := by
  unfold strToBytes at h
  exact String.ext (List.map_injective_iff.mpr char_toNat_injective h)

theorem bytes_lt_of_isByteStr (s : String) (h : isByteStr s = true) :
    ∀ x ∈ strToBytes s, x < 256 := by
  intro x hx
  unfold strToBytes at hx
  rcases List.mem_map.mp hx with ⟨c, hc, rfl⟩
  have h' : ∀ c ∈ s.data, c.toNat < 256 := by simpa [isByteStr] using h
  exact h' c hc

theorem btoa_inj (s1 s2 : String) (h1 : isByteStr s1 = true) (h2 : isByteStr s2 = true)
    (h : btoa s1 = btoa s2) : s1 = s2 := by
  unfold btoa at h
  have h' : btoaBytes (strToBytes s1) = btoaBytes (strToBytes s2) := congrArg String.data h
  exact strToBytes_inj s1 s2
    (btoaBytes_inj _ _ (bytes_lt_of_isByteStr s1 h1) (bytes_lt_of_isByteStr s2 h2) h')

theorem isByteStr_append (s1 s2 : String) :
    isByteStr (s1 ++ s2) = (isByteStr s1 && isByteStr s2) := by
  simp [isByteStr, String.data_append]

/-- C6 (amended): mutating any single signed field (fileId, user id, or
expires) always changes the payload string and therefore the raw base64 MAC
`btoa(payload + secret)`.  The stored signature, however, is this base64
with `+`, `/`, `=` stripped, which is not injective, so a mutated token can
still verify against the unchanged embedded signature: see the
counterexample, which mutates the percent-decoded `user` query parameter
from `>` to `?`, both deliverable in a real query string. -/
theorem C6_mutation_changes_raw_mac (f f2 u u2 e e2 secret : String)
    (hf : isByteStr f = true) (hf2 : isByteStr f2 = true)
    (hu : isByteStr u = true) (hu2 : isByteStr u2 = true)
    (he : isByteStr e = true) (he2 : isByteStr e2 = true)
    (hsec : isByteStr secret = true) :
    (f ≠ f2 → btoa (signedPayload f u e ++ secret) ≠ btoa (signedPayload f2 u e ++ secret))
    ∧ (u ≠ u2 → btoa (signedPayload f u e ++ secret) ≠ btoa (signedPayload f u2 e ++ secret))
    ∧ (e ≠ e2 → btoa (signedPayload f u e ++ secret) ≠ btoa (signedPayload f u e2 ++ secret)) := by
  have hbs : ∀ a b c : String, isByteStr a = true → isByteStr b = true → isByteStr c = true →
      isByteStr (signedPayload a b c ++ secret) = true := by
    intro a b c ha hb hc
    simp [signedPayload, isByteStr_append, ha, hb, hc, hsec]
    decide
  refine ⟨fun hne hb => hne ?_, fun hne hb => hne ?_, fun hne hb => hne ?_⟩
  · have hp := btoa_inj _ _ (hbs f u e hf hu he) (hbs f2 u e hf2 hu he) hb
    have hd := congrArg String.data hp
    simp only [signedPayload, String.data_append, List.append_assoc] at hd
    exact String.ext (List.append_cancel_right hd)
  · have hp := btoa_inj _ _ (hbs f u e hf hu he) (hbs f u2 e hf hu2 he) hb
    have hd := congrArg String.data hp
    simp only [signedPayload, String.data_append, List.append_assoc] at hd
    have hd2 := List.append_cancel_left hd
    have hd3 := List.append_cancel_left hd2
    exact String.ext (List.append_cancel_right hd3)
  · have hp := btoa_inj _ _ (hbs f u e hf hu he) (hbs f u e2 hf hu he2) hb
    have hd := congrArg String.data hp
    simp only [signedPayload, String.data_append, List.append_assoc] at hd
    have hd2 := List.append_cancel_left hd
    have hd3 := List.append_cancel_left hd2
    have hd4 := List.append_cancel_left hd3
    have hd5 := List.append_cancel_left hd4
    exact String.ext (List.append_cancel_right hd5)

/-- Witness for C6 (amended): changing the fileId from `a` to `b` changes
the raw base64 MAC. -/
theorem C6_witness :
    btoa (signedPayload ("a") ("u") ("7") ++ ("s"))
      ≠ btoa (signedPayload ("b") ("u") ("7") ++ ("s")) :=
  (C6_mutation_changes_raw_mac ("a") ("b") ("u") ("u") ("7") ("7") ("s")
    (by decide) (by decide) (by decide) (by decide) (by decide) (by decide) (by decide)).1
    (by decide)

/-- Counterexample to C6 as stated, at a realizable input: the token for
`(fileId = "f", user = ">", expires = "7")` with secret `"s"` (the `user`
value `>` is delivered percent-encoded as `user=%3E` and decoded by
`url.searchParams.get`).  Mutating the signed `user` field to `?`
(`user=%3F`) leaves the stripped signature unchanged — the raw MACs
`Zjo+Ojdz` and `Zjo/Ojdz` differ only in a character erased by
`.replace(/[+/=]/g, '')` — and the mutated token passes `verifySignedUrl`
with the original, unchanged signature. -/
theorem C6_counterexample :
    (">" : String) ≠ ("?" : String)
    ∧ sigOf ("f") ("?") ("7") ("s") = sigOf ("f") (">") ("7") ("s")
    ∧ verifySignedUrl ("f") (some (sigOf ("f") (">") ("7") ("s"))) (some ("7"))
        (some ("?")) ("s") 0
      = .valid ("?") ("f") (some 7) := by
  refine ⟨by decide, by decide, by decide⟩

end ContentStore
